import Mathlib

/-!
Verification of the map-operation lowering stage (src/compiler/map.go).

The file shallowly embeds the static type model of `go/types` as far as the
lowering code inspects it, the key classifier `hashmapIsBinaryKey`, the two
hash functions `hashmapHash` and `hashmapTopHash`, and the four emit
procedures `emitMakeMap`, `emitMapLookup`, `emitMapUpdate`, `emitMapDelete`
as trace-producing pure functions.  Machine integers are modelled as `Nat`
with explicit `% 2^w` where the Go code wraps.
-/

/-! ## Static types (the fragment of `go/types` that map.go inspects) -/

/-- The basic (predeclared) kinds that can occur as map key component types.
Mirrors `types.BasicKind`; untyped kinds cannot reach SSA map operations and
are omitted. -/
inductive BasicKind where
  | bool | int | int8 | int16 | int32 | int64
  | uint | uint8 | uint16 | uint32 | uint64 | uintptr
  | float32 | float64 | complex64 | complex128
  | string
  deriving Repr, DecidableEq

/-- `types.IsBoolean`. -/
def IsBoolean : Nat := 1
/-- `types.IsInteger`. -/
def IsInteger : Nat := 2
/-- `types.IsUnsigned`. -/
def IsUnsigned : Nat := 4
/-- `types.IsFloat`. -/
def IsFloat : Nat := 8
/-- `types.IsComplex`. -/
def IsComplex : Nat := 16
/-- `types.IsString`. -/
def IsString : Nat := 32

/-- `(*types.Basic).Info()`: the information flag bitmask of a basic kind,
with the flag values of `go/types`. -/
def BasicKind.info : BasicKind → Nat
  | .bool => IsBoolean
  | .int | .int8 | .int16 | .int32 | .int64 => IsInteger
  | .uint | .uint8 | .uint16 | .uint32 | .uint64 | .uintptr =>
      IsInteger ||| IsUnsigned
  | .float32 | .float64 => IsFloat
  | .complex64 | .complex128 => IsComplex
  | .string => IsString

/-- The `types.Type` shapes distinguished by map.go: basic types, pointers,
structs (only the field types matter here), fixed arrays, named/aliased
types, and the remaining shapes that the classifier treats alike
(interfaces, slices, maps, functions, channels). -/
inductive GoType where
  | basic : BasicKind → GoType
  | pointer : GoType → GoType
  | struct : List GoType → GoType
  | array : Nat → GoType → GoType
  | named : GoType → GoType
  | interface : GoType
  | slice : GoType → GoType
  | map : GoType → GoType → GoType
  | signature : GoType
  | chan : GoType → GoType
  deriving Repr

/-- `Type.Underlying()`.  In `go/types` the underlying type of a `Named`
type is itself never `Named`; the embedding bakes that invariant in by
unwrapping `named` wrappers fully, so that every `GoType` value behaves
like a legal `go/types` value. -/
def GoType.underlying : GoType → GoType
  | .named t => t.underlying
  | .basic k => .basic k
  | .pointer t => .pointer t
  | .struct fields => .struct fields
  | .array n t => .array n t
  | .interface => .interface
  | .slice t => .slice t
  | .map k v => .map k v
  | .signature => .signature
  | .chan t => .chan t

theorem GoType.sizeOf_underlying_le : ∀ t : GoType, sizeOf t.underlying ≤ sizeOf t
  | .named t => by
      have ih := GoType.sizeOf_underlying_le t
      simp only [GoType.underlying]
      simp only [GoType.named.sizeOf_spec]
      omega
  | .basic _ => by simp [GoType.underlying]
  | .pointer _ => by simp [GoType.underlying]
  | .struct _ => by simp [GoType.underlying]
  | .array _ _ => by simp [GoType.underlying]
  | .interface => by simp [GoType.underlying]
  | .slice _ => by simp [GoType.underlying]
  | .map _ _ => by simp [GoType.underlying]
  | .signature => by simp [GoType.underlying]
  | .chan _ => by simp [GoType.underlying]

theorem GoType.underlying_underlying : ∀ t : GoType, t.underlying.underlying = t.underlying
  | .named t => GoType.underlying_underlying t
  | .basic _ => rfl
  | .pointer _ => rfl
  | .struct _ => rfl
  | .array _ _ => rfl
  | .interface => rfl
  | .slice _ => rfl
  | .map _ _ => rfl
  | .signature => rfl
  | .chan _ => rfl

/-! ## The key classifier (map.go lines 142-165) -/

mutual
/-- `hashmapIsBinaryKey` (map.go): true if this key type does not contain
strings, interfaces etc., so it can be compared with `runtime.memequal`. -/
def hashmapIsBinaryKey : GoType → Bool
  | .basic keyType => keyType.info &&& (IsBoolean ||| IsInteger) != 0
  | .pointer _ => true
  | .struct fields => allFieldsBinary fields
  | .array _ elem => hashmapIsBinaryKey elem
  | .named u => hashmapIsBinaryKey (GoType.named u).underlying
  | _ => false
termination_by t => sizeOf t
decreasing_by
  · simp only [GoType.struct.sizeOf_spec]; omega
  · simp only [GoType.array.sizeOf_spec]; omega
  · have h2 : sizeOf (GoType.named u).underlying = sizeOf u.underlying := rfl
    have h3 := GoType.sizeOf_underlying_le u
    simp only [GoType.named.sizeOf_spec]
    omega

/-- The field loop of `hashmapIsBinaryKey`'s struct case: every field type's
underlying type is itself a binary key (the loop returns false at the first
field that is not). -/
def allFieldsBinary : List GoType → Bool
  | [] => true
  | fieldType :: rest =>
      hashmapIsBinaryKey fieldType.underlying && allFieldsBinary rest
termination_by fields => sizeOf fields
decreasing_by
  · have h := GoType.sizeOf_underlying_le fieldType
    simp only [List.cons.sizeOf_spec]
    omega
  · simp only [List.cons.sizeOf_spec]
    omega
end

/-! ## Key classes and the per-call-site dispatch -/

/-- The three classifier verdicts of the spec. -/
inductive KeyClass where
  | Unsupported
  | StringKey
  | BinaryKey
  deriving Repr, DecidableEq

/-- The string test performed at every dispatch site:
`if t, ok := keyType.(*types.Basic); ok && t.Info()&types.IsString != 0`. -/
def isStringBasic : GoType → Bool
  | .basic t => t.info &&& IsString != 0
  | _ => false

/-- The key classifier as realised at the update and delete call sites
(map.go lines 83-97 and 102-117): first `keyType = keyType.Underlying()`,
then the basic-string test selects the string path, else
`hashmapIsBinaryKey` selects the binary path, else the key is unsupported. -/
def classify (keyType : GoType) : KeyClass :=
  let kt := keyType.underlying
  if isStringBasic kt then .StringKey
  else if hashmapIsBinaryKey kt then .BinaryKey
  else .Unsupported

mutual
/-- The classification table exactly as the spec states it: primitive
strings are StringKey; booleans and integers of any width are BinaryKey;
pointers are BinaryKey; a struct is BinaryKey iff every field (recursively,
on its underlying type) is BinaryKey and otherwise Unsupported; a
fixed-size array inherits its element's class; a named type inherits its
underlying type's class; everything else (interfaces, slices, maps,
functions, floats, complex) is Unsupported. -/
def classifySpec : GoType → KeyClass
  | .basic k =>
      if k.info &&& IsString != 0 then .StringKey
      else if k.info &&& (IsBoolean ||| IsInteger) != 0 then .BinaryKey
      else .Unsupported
  | .pointer _ => .BinaryKey
  | .struct fields => if specFieldsBinary fields then .BinaryKey else .Unsupported
  | .array _ elem => classifySpec elem
  | .named u => classifySpec (GoType.named u).underlying
  | _ => .Unsupported
termination_by t => sizeOf t
decreasing_by
  · simp only [GoType.struct.sizeOf_spec]; omega
  · simp only [GoType.array.sizeOf_spec]; omega
  · have h2 : sizeOf (GoType.named u).underlying = sizeOf u.underlying := rfl
    have h3 := GoType.sizeOf_underlying_le u
    simp only [GoType.named.sizeOf_spec]
    omega

/-- Spec struct rule helper: every field, classified recursively on its
underlying type, is BinaryKey. -/
def specFieldsBinary : List GoType → Bool
  | [] => true
  | fieldType :: rest =>
      (classifySpec fieldType.underlying == .BinaryKey) && specFieldsBinary rest
termination_by fields => sizeOf fields
decreasing_by
  · have h := GoType.sizeOf_underlying_le fieldType
    simp only [List.cons.sizeOf_spec]
    omega
  · simp only [List.cons.sizeOf_spec]
    omega
end

mutual
/-- The spec table amended at the array rule only: a fixed-size array is
BinaryKey iff its element classifies as BinaryKey, and Unsupported
otherwise (an array whose element classifies as StringKey is Unsupported,
not StringKey). -/
def classifySpecAmended : GoType → KeyClass
  | .basic k =>
      if k.info &&& IsString != 0 then .StringKey
      else if k.info &&& (IsBoolean ||| IsInteger) != 0 then .BinaryKey
      else .Unsupported
  | .pointer _ => .BinaryKey
  | .struct fields => if amendedFieldsBinary fields then .BinaryKey else .Unsupported
  | .array _ elem =>
      if classifySpecAmended elem == .BinaryKey then .BinaryKey else .Unsupported
  | .named u => classifySpecAmended (GoType.named u).underlying
  | _ => .Unsupported
termination_by t => sizeOf t
decreasing_by
  · simp only [GoType.struct.sizeOf_spec]; omega
  · simp only [GoType.array.sizeOf_spec]; omega
  · have h2 : sizeOf (GoType.named u).underlying = sizeOf u.underlying := rfl
    have h3 := GoType.sizeOf_underlying_le u
    simp only [GoType.named.sizeOf_spec]
    omega

/-- Amended spec struct rule helper. -/
def amendedFieldsBinary : List GoType → Bool
  | [] => true
  | fieldType :: rest =>
      (classifySpecAmended fieldType.underlying == .BinaryKey) && amendedFieldsBinary rest
termination_by fields => sizeOf fields
decreasing_by
  · have h := GoType.sizeOf_underlying_le fieldType
    simp only [List.cons.sizeOf_spec]
    omega
  · simp only [List.cons.sizeOf_spec]
    omega
end

/-! ## Hash functions (map.go lines 120-140) -/

/-- `hashmapHash`: FNV-1a over a byte sequence.  Bytes are `Nat` values
below 256; `uint32` arithmetic wraps with `% 2^32`. -/
def hashmapHash (data : List Nat) : Nat :=
  data.foldl (fun result c => ((result ^^^ c) * 16777619) % 2^32) 2166136261

/-- `hashmapTopHash`: the topmost 8 bits of the hash, bumped so the result
is never the empty-slot sentinel 0.  `uint8(hash >> 24)` is
`(hash >>> 24) % 2^8`. -/
def hashmapTopHash (hash : Nat) : Nat :=
  let tophash := (hash >>> 24) % 2^8
  if tophash < 1 then tophash + 1 else tophash

/-! ## The emission model

Each emit procedure is modelled as a pure function producing the ordered
list of builder actions it performs (allocas, stores, runtime calls, loads,
lifetime ends) together with its result and its diagnostic.  Source
positions carry no information in this model and are omitted; a diagnostic
is modelled as the offending key type it names. -/

/-- One builder action, in emission order. -/
inductive Event where
  | alloca : String → Event
  | store : String → Event
  | call : String → Event
  | load : String → Event
  | lifetimeEnd : String → Event
  deriving Repr, DecidableEq

/-- True exactly on runtime-call events. -/
def Event.isCall : Event → Bool
  | .call _ => true
  | _ => false

/-- Every buffer created by an `alloca` event in the trace also has a
`lifetimeEnd` event in the trace. -/
def allAllocasReleased (events : List Event) : Bool :=
  events.all fun e =>
    match e with
    | .alloca b => events.contains (.lifetimeEnd b)
    | _ => true

/-- Shape of the value `emitMapLookup` returns: the zero `llvm.Value` on
the error path, the bare loaded map value, or the (value, found-flag)
tuple. -/
inductive ResultShape where
  | empty
  | bare
  | pair
  deriving Repr, DecidableEq

/-- Result of `emitMapLookup`: the trace, the shape of the returned value,
and the returned error (the offending key type), if any. -/
structure LookupOut where
  events : List Event
  result : ResultShape
  err : Option GoType
  deriving Repr

/-- Result of `emitMapUpdate` (diagnostic via `addError`) and of
`emitMapDelete` (returned error). -/
structure EmitOut where
  events : List Event
  err : Option GoType
  deriving Repr

/-- `emitMapLookup` (map.go lines 36-78).  The result buffer
"hashmap.value" is allocated first; the dispatch tests `keyType` itself
(no `Underlying()` call): basic string → `hashmapStringGet`; binary key →
stage "hashmap.key", `hashmapBinaryGet`, release the key buffer; otherwise
return the zero `llvm.Value` and an error.  On success the value is loaded,
the value buffer released, and the result is the bare value or the
(value, comma-ok) tuple. -/
def emitMapLookup (keyType valueType : GoType) (commaOk : Bool) : LookupOut :=
  if isStringBasic keyType then
    { events := [.alloca "hashmap.value", .call "hashmapStringGet",
                 .load "hashmap.value", .lifetimeEnd "hashmap.value"],
      result := if commaOk then .pair else .bare,
      err := none }
  else if hashmapIsBinaryKey keyType then
    { events := [.alloca "hashmap.value", .alloca "hashmap.key",
                 .store "hashmap.key", .call "hashmapBinaryGet",
                 .lifetimeEnd "hashmap.key", .load "hashmap.value",
                 .lifetimeEnd "hashmap.value"],
      result := if commaOk then .pair else .bare,
      err := none }
  else
    { events := [.alloca "hashmap.value"],
      result := .empty,
      err := some keyType }

/-- `emitMapUpdate` (map.go lines 80-99).  The value buffer is staged
first, `keyType = keyType.Underlying()` before the dispatch; on the
unsupported branch `addError` reports the (unwrapped) key type and the
value buffer is still released by the shared tail. -/
def emitMapUpdate (keyType : GoType) : EmitOut :=
  let kt := keyType.underlying
  if isStringBasic kt then
    { events := [.alloca "hashmap.value", .store "hashmap.value",
                 .call "hashmapStringSet", .lifetimeEnd "hashmap.value"],
      err := none }
  else if hashmapIsBinaryKey kt then
    { events := [.alloca "hashmap.value", .store "hashmap.value",
                 .alloca "hashmap.key", .store "hashmap.key",
                 .call "hashmapBinarySet", .lifetimeEnd "hashmap.key",
                 .lifetimeEnd "hashmap.value"],
      err := none }
  else
    { events := [.alloca "hashmap.value", .store "hashmap.value",
                 .lifetimeEnd "hashmap.value"],
      err := some kt }

/-- `emitMapDelete` (map.go lines 101-118).  `keyType =
keyType.Underlying()` before the dispatch; nothing is staged before the
classification, and the unsupported branch returns an error without
emitting anything. -/
def emitMapDelete (keyType : GoType) : EmitOut :=
  let kt := keyType.underlying
  if isStringBasic kt then
    { events := [.call "hashmapStringDelete"], err := none }
  else if hashmapIsBinaryKey kt then
    { events := [.alloca "hashmap.key", .store "hashmap.key",
                 .call "hashmapBinaryDelete", .lifetimeEnd "hashmap.key"],
      err := none }
  else
    { events := [], err := some kt }

/-! ## Map creation (map.go lines 13-34) -/

/-- Modelled from the spec: `parseConvert` is code of this repository that
is not under src/ (only its caller `emitMakeMap` is).  Per the spec the
supplied size hint "is converted to the runtime's native size-word type
before the call" and map creation "never fails at this layer", so the
conversion is modelled as total truncation to the `uintptr` width. -/
def parseConvert (fromType : GoType) (v : Nat) (ptrBits : Nat) : Nat :=
  v % 2^ptrBits

/-- The `hashmapMake` runtime call with its three constant-folded
arguments. -/
structure MakeMapCall where
  fn : String
  keySize : Nat
  valueSize : Nat
  sizeHint : Nat
  deriving Repr, DecidableEq

/-- `emitMakeMap`.  `allocSize` is the target layout oracle
(`TypeAllocSize` composed with `getLLVMType`), `ptrBits` the width of
`uintptrType`.  Key and value sizes are taken of the underlying types and
emitted as `i8` constants; the size hint defaults to the `uintptr` constant
8 and otherwise is the converted `Reserve` operand. -/
def emitMakeMap (allocSize : GoType → Nat) (ptrBits : Nat) (mapType : GoType)
    (reserve : Option (GoType × Nat)) : Except String MakeMapCall :=
  match mapType.underlying with
  | .map keyT valT =>
      let keySize := allocSize keyT.underlying % 2^8
      let valueSize := allocSize valT.underlying % 2^8
      let sizeHint :=
        match reserve with
        | none => 8 % 2^ptrBits
        | some (rTy, rVal) => parseConvert rTy rVal ptrBits
      .ok { fn := "hashmapMake", keySize := keySize, valueSize := valueSize,
            sizeHint := sizeHint }
  | _ => .error "makemap of a non-map type"

/-! ## Theorems -/

/-- C5: for every 32-bit input `h`, `hashmapTopHash h` is never 0; if the
most-significant 8 bits of `h` are 0 it equals 1, otherwise it equals
`h >>> 24` truncated to 8 bits. -/
theorem hashmapTopHash_spec (h : Nat) (hh : h < 2^32) :
    hashmapTopHash h ≠ 0 ∧
    (h >>> 24 = 0 → hashmapTopHash h = 1) ∧
    (h >>> 24 ≠ 0 → hashmapTopHash h = (h >>> 24) % 2^8) := by
  have hlt : h >>> 24 < 2^8 := by
    rw [Nat.shiftRight_eq_div_pow]
    norm_num at hh ⊢
    omega
  simp only [hashmapTopHash, Nat.mod_eq_of_lt hlt]
  refine ⟨?_, ?_, ?_⟩
  · split_ifs <;> omega
  · intro h0; simp [h0]
  · intro h0; split_ifs <;> omega

theorem hashmapTopHash_spec_witness :
    hashmapTopHash 5 = 1 ∧ hashmapTopHash 50331648 ≠ 0 :=
  ⟨(hashmapTopHash_spec 5 (by norm_num)).2.1 (by decide),
   (hashmapTopHash_spec 50331648 (by norm_num)).1⟩

/-- C6: `hashmapHash` is FNV-1a left to right with 32-bit wrap-around:
it starts from the offset basis 2166136261 (so the empty sequence hashes
to exactly that constant) and each byte is XORed in and then the
accumulator is multiplied by the prime 16777619, with no finalization. -/
theorem hashmapHash_fnv1a :
    hashmapHash [] = 2166136261 ∧
    ∀ (data : List Nat) (b : Nat), b < 256 →
      hashmapHash (data ++ [b]) =
        ((hashmapHash data ^^^ b) * 16777619) % 2^32 := by
  refine ⟨rfl, ?_⟩
  intro data b _
  simp [hashmapHash, List.foldl_append]

theorem hashmapHash_fnv1a_witness :
    hashmapHash ([104] ++ [105]) =
      ((hashmapHash [104] ^^^ 105) * 16777619) % 2^32 :=
  hashmapHash_fnv1a.2 [104] 105 (by decide)

/-- C4: `emitMakeMap` never fails at this lowering layer: for every key
type, value type and optional size hint it returns the `hashmapMake` call
(and hence a map handle) and no error, with no key classification
involved. -/
theorem emitMakeMap_never_fails (allocSize : GoType → Nat) (ptrBits : Nat)
    (keyT valT : GoType) (reserve : Option (GoType × Nat)) :
    ∃ c, emitMakeMap allocSize ptrBits (.map keyT valT) reserve = .ok c ∧
      c.fn = "hashmapMake" := by
  cases reserve with
  | none => exact ⟨_, rfl, rfl⟩
  | some r =>
      obtain ⟨rTy, rVal⟩ := r
      exact ⟨_, rfl, rfl⟩

/-- C9: with no caller-supplied size hint the `hashmapMake` call receives
the size hint 8 as a constant of the native size-word type; a supplied
hint is converted to that type (`parseConvert`) before the call. -/
theorem emitMakeMap_sizeHint (allocSize : GoType → Nat) (ptrBits : Nat)
    (keyT valT : GoType) (hp : 8 < 2^ptrBits) :
    (∃ c, emitMakeMap allocSize ptrBits (.map keyT valT) none = .ok c ∧
       c.sizeHint = 8) ∧
    ∀ rTy rVal, ∃ c,
      emitMakeMap allocSize ptrBits (.map keyT valT) (some (rTy, rVal)) = .ok c ∧
      c.sizeHint = parseConvert rTy rVal ptrBits := by
  constructor
  · exact ⟨_, rfl, Nat.mod_eq_of_lt hp⟩
  · intro rTy rVal
    exact ⟨_, rfl, rfl⟩

theorem emitMakeMap_sizeHint_witness :
    ∃ c, emitMakeMap (fun _ => 1) 32
        (.map (.basic .uint8) (.basic .uint8)) none = .ok c ∧
      c.sizeHint = 8 :=
  (emitMakeMap_sizeHint (fun _ => 1) 32 (.basic .uint8) (.basic .uint8)
    (by norm_num)).1

/-- C10: the empty struct classifies as a binary key (the all-fields
condition is vacuously true), so lookup, update and delete all accept it
and call the binary-keyed entry points. -/
theorem emptyStruct_binary_key :
    hashmapIsBinaryKey (.struct []) = true ∧
    classify (.struct []) = .BinaryKey ∧
    (emitMapLookup (.struct []) (.basic .int64) false).err = none ∧
    Event.call "hashmapBinaryGet" ∈
      (emitMapLookup (.struct []) (.basic .int64) false).events ∧
    (emitMapUpdate (.struct [])).err = none ∧
    Event.call "hashmapBinarySet" ∈ (emitMapUpdate (.struct [])).events ∧
    (emitMapDelete (.struct [])).err = none ∧
    Event.call "hashmapBinaryDelete" ∈ (emitMapDelete (.struct [])).events := by
  simp [hashmapIsBinaryKey, allFieldsBinary, classify, isStringBasic,
        emitMapLookup, emitMapUpdate, emitMapDelete, GoType.underlying]

/-- C2 (code bug, evaluated at the failing input): for a named type whose
underlying type is a primitive string, `emitMapLookup` dispatches on the
key type without unwrapping and reports an unsupported-key error, while
`emitMapUpdate` and `emitMapDelete` unwrap first and emit the string-keyed
entry points. -/
theorem named_string_lookup_divergence :
    (emitMapLookup (.named (.basic .string)) (.basic .int64) false).err =
      some (.named (.basic .string)) ∧
    (emitMapLookup (.named (.basic .string)) (.basic .int64) false).events =
      [.alloca "hashmap.value"] ∧
    (emitMapUpdate (.named (.basic .string))).err = none ∧
    Event.call "hashmapStringSet" ∈
      (emitMapUpdate (.named (.basic .string))).events ∧
    (emitMapDelete (.named (.basic .string))).err = none ∧
    Event.call "hashmapStringDelete" ∈
      (emitMapDelete (.named (.basic .string))).events := by
  simp [emitMapLookup, emitMapUpdate, emitMapDelete, isStringBasic,
        hashmapIsBinaryKey, GoType.underlying, BasicKind.info,
        IsString, IsBoolean, IsInteger,
        (show (32 : Nat) &&& 3 = 0 from by decide)]

/-- C3 counterexample: on an unsupported key, `emitMapLookup` has already
staged its result buffer but returns early without releasing it (no
`lifetimeEnd "hashmap.value"` is emitted), so the claim that every staged
buffer is still released on the error path is false for lookup.  No
runtime call is emitted, as claimed. -/
theorem lookup_unsupported_leaves_value_buffer :
    (emitMapLookup .interface (.basic .int64) false).err = some .interface ∧
    Event.alloca "hashmap.value" ∈
      (emitMapLookup .interface (.basic .int64) false).events ∧
    Event.lifetimeEnd "hashmap.value" ∉
      (emitMapLookup .interface (.basic .int64) false).events ∧
    allAllocasReleased (emitMapLookup .interface (.basic .int64) false).events
      = false ∧
    ((emitMapLookup .interface (.basic .int64) false).events.all
      fun e => !e.isCall) = true := by
  simp [emitMapLookup, isStringBasic, hashmapIsBinaryKey,
        allAllocasReleased, Event.isCall]

/-- C3 amended: when an unsupported key is detected, no runtime call is
emitted in any of the three operations; update still releases its staged
value buffer and delete has staged nothing, but lookup returns early with
its staged result buffer not released. -/
theorem unsupported_key_cleanup (keyType valueType : GoType) (commaOk : Bool) :
    ((emitMapLookup keyType valueType commaOk).err.isSome →
      ((emitMapLookup keyType valueType commaOk).events.all
        fun e => !e.isCall) = true ∧
      (emitMapLookup keyType valueType commaOk).events =
        [.alloca "hashmap.value"] ∧
      allAllocasReleased (emitMapLookup keyType valueType commaOk).events
        = false) ∧
    ((emitMapUpdate keyType).err.isSome →
      ((emitMapUpdate keyType).events.all fun e => !e.isCall) = true ∧
      allAllocasReleased (emitMapUpdate keyType).events = true) ∧
    ((emitMapDelete keyType).err.isSome →
      ((emitMapDelete keyType).events.all fun e => !e.isCall) = true ∧
      allAllocasReleased (emitMapDelete keyType).events = true) := by
  refine ⟨?_, ?_, ?_⟩
  · simp only [emitMapLookup]
    split_ifs <;> simp [allAllocasReleased, Event.isCall]
  · simp only [emitMapUpdate]
    split_ifs
    · simp
    · simp
    · intro _
      constructor <;> simp [allAllocasReleased, Event.isCall]
  · simp only [emitMapDelete]
    split_ifs
    · simp
    · simp
    · intro _
      constructor <;> simp [allAllocasReleased, Event.isCall]

theorem unsupported_key_cleanup_witness :
    ((emitMapUpdate GoType.interface).events.all fun e => !e.isCall) = true ∧
    allAllocasReleased (emitMapUpdate GoType.interface).events = true :=
  (unsupported_key_cleanup GoType.interface GoType.interface false).2.1
    (by simp [emitMapUpdate, isStringBasic, hashmapIsBinaryKey,
              GoType.underlying])

/-- C7: the shape of the lookup result is determined solely by the
comma-ok flag: the emitted trace (in particular the single runtime get
call, which computes the found flag in both modes, and the load of the
zero-filled-on-miss value buffer) is identical whether or not the flag is
requested, and on success the produced value is the (value, flag) pair
exactly when the flag was requested and the bare value otherwise. -/
theorem lookup_shape_by_commaOk (keyType valueType : GoType) (commaOk : Bool) :
    (emitMapLookup keyType valueType true).events =
      (emitMapLookup keyType valueType false).events ∧
    ((emitMapLookup keyType valueType commaOk).err = none →
      (emitMapLookup keyType valueType commaOk).result =
        (if commaOk then ResultShape.pair else ResultShape.bare) ∧
      Event.load "hashmap.value" ∈
        (emitMapLookup keyType valueType commaOk).events ∧
      ((emitMapLookup keyType valueType commaOk).events.countP
        fun e => e.isCall) = 1) := by
  unfold emitMapLookup
  constructor
  · split_ifs <;> rfl
  · split_ifs <;> simp [Event.isCall, List.countP, List.countP.go]

theorem lookup_shape_by_commaOk_witness :
    (emitMapLookup (.basic .string) (.basic .int64) false).result =
      (if false then ResultShape.pair else ResultShape.bare) ∧
    Event.load "hashmap.value" ∈
      (emitMapLookup (.basic .string) (.basic .int64) false).events ∧
    ((emitMapLookup (.basic .string) (.basic .int64) false).events.countP
      fun e => e.isCall) = 1 :=
  (lookup_shape_by_commaOk (.basic .string) (.basic .int64) false).2
    (by simp [emitMapLookup, isStringBasic, BasicKind.info, IsString])

/-- C8 counterexample: on an unsupported key with no flag requested,
`emitMapLookup` returns the zero `llvm.Value`, not a placeholder of the
map's value type (the bare shape), so the claim that a well-typed
placeholder result is produced is false. -/
theorem lookup_unsupported_result_counterexample :
    (emitMapLookup .interface (.basic .int64) false).err.isSome = true ∧
    (emitMapLookup .interface (.basic .int64) false).result =
      ResultShape.empty ∧
    ResultShape.empty ≠ ResultShape.bare ∧
    ResultShape.empty ≠ ResultShape.pair := by
  simp [emitMapLookup, isStringBasic, hashmapIsBinaryKey]

/-- C8 amended: when lookup fails on an unsupported key it returns the
zero `llvm.Value` together with the error; no placeholder of the value or
pair type is produced, and the caller is expected to consult the returned
error. -/
theorem lookup_unsupported_returns_zero_value (keyType valueType : GoType)
    (commaOk : Bool)
    (h : (emitMapLookup keyType valueType commaOk).err.isSome) :
    (emitMapLookup keyType valueType commaOk).result = ResultShape.empty := by
  unfold emitMapLookup at h ⊢
  split_ifs at h ⊢ <;> simp_all

theorem lookup_unsupported_returns_zero_value_witness :
    (emitMapLookup GoType.interface (.basic .int64) false).result =
      ResultShape.empty :=
  lookup_unsupported_returns_zero_value GoType.interface (.basic .int64) false
    (by simp [emitMapLookup, isStringBasic, hashmapIsBinaryKey])

/-- `hashmapIsBinaryKey` is invariant under `Underlying()` because its
named-type case itself recurses into the underlying type. -/
theorem isBinaryKey_underlying (t : GoType) :
    hashmapIsBinaryKey t.underlying = hashmapIsBinaryKey t := by
  cases t <;> simp [GoType.underlying, hashmapIsBinaryKey]

/-- Joint strong induction: the code's binary-key test agrees with a
BinaryKey verdict of the amended spec table, and the code's string test
on the underlying type agrees with a StringKey verdict of the amended
spec table (together with the field-list versions). -/
theorem classifyAmended_aux (n : Nat) :
    (∀ t : GoType, sizeOf t ≤ n →
      hashmapIsBinaryKey t = (classifySpecAmended t == KeyClass.BinaryKey) ∧
      isStringBasic t.underlying =
        (classifySpecAmended t == KeyClass.StringKey)) ∧
    (∀ fs : List GoType, sizeOf fs ≤ n →
      allFieldsBinary fs = amendedFieldsBinary fs) := by
  induction n using Nat.strong_induction_on with
  | _ n ih =>
    have ihT : ∀ t : GoType, sizeOf t < n →
        hashmapIsBinaryKey t = (classifySpecAmended t == KeyClass.BinaryKey) ∧
        isStringBasic t.underlying =
          (classifySpecAmended t == KeyClass.StringKey) :=
      fun t h => (ih (sizeOf t) h).1 t le_rfl
    have ihL : ∀ fs : List GoType, sizeOf fs < n →
        allFieldsBinary fs = amendedFieldsBinary fs :=
      fun fs h => (ih (sizeOf fs) h).2 fs le_rfl
    constructor
    · intro t ht
      cases t with
      | basic k =>
          cases k <;>
            simp only [hashmapIsBinaryKey, classifySpecAmended] <;> decide
      | pointer u =>
          refine ⟨by simp [hashmapIsBinaryKey, classifySpecAmended], ?_⟩
          simp [isStringBasic, GoType.underlying, classifySpecAmended,
                (show (KeyClass.BinaryKey == KeyClass.StringKey) = false
                  from rfl)]
      | struct fs =>
          have hfs : sizeOf fs < n := by
            simp only [GoType.struct.sizeOf_spec] at ht; omega
          have hQ := ihL fs hfs
          constructor
          · simp only [hashmapIsBinaryKey, classifySpecAmended, hQ]
            cases hb : amendedFieldsBinary fs <;> simp [hb]
          · simp only [isStringBasic, GoType.underlying, classifySpecAmended]
            cases hb : amendedFieldsBinary fs <;> simp [hb]
      | array len e =>
          have he : sizeOf e < n := by
            simp only [GoType.array.sizeOf_spec] at ht; omega
          have hT := ihT e he
          constructor
          · simp only [hashmapIsBinaryKey, classifySpecAmended, hT.1]
            cases hb : (classifySpecAmended e == KeyClass.BinaryKey) <;>
              simp [hb]
          · simp only [isStringBasic, GoType.underlying, classifySpecAmended]
            cases hb : (classifySpecAmended e == KeyClass.BinaryKey) <;>
              simp [hb]
      | named u =>
          have hu : sizeOf u.underlying < n := by
            have ha := GoType.sizeOf_underlying_le u
            simp only [GoType.named.sizeOf_spec] at ht; omega
          have hT := ihT u.underlying hu
          constructor
          · simp only [hashmapIsBinaryKey, classifySpecAmended,
                       GoType.underlying]
            exact hT.1
          · have h2 := hT.2
            rw [GoType.underlying_underlying] at h2
            simp only [classifySpecAmended, GoType.underlying]
            exact h2
      | interface =>
          simp [hashmapIsBinaryKey, classifySpecAmended, isStringBasic,
                GoType.underlying]
      | slice u =>
          simp [hashmapIsBinaryKey, classifySpecAmended, isStringBasic,
                GoType.underlying]
      | map k v =>
          simp [hashmapIsBinaryKey, classifySpecAmended, isStringBasic,
                GoType.underlying]
      | signature =>
          simp [hashmapIsBinaryKey, classifySpecAmended, isStringBasic,
                GoType.underlying]
      | chan u =>
          simp [hashmapIsBinaryKey, classifySpecAmended, isStringBasic,
                GoType.underlying]
    · intro fs hfs
      cases fs with
      | nil => simp [allFieldsBinary, amendedFieldsBinary]
      | cons f rest =>
          have h1 : sizeOf f.underlying < n := by
            have ha := GoType.sizeOf_underlying_le f
            simp only [List.cons.sizeOf_spec] at hfs; omega
          have h2 : sizeOf rest < n := by
            simp only [List.cons.sizeOf_spec] at hfs; omega
          simp only [allFieldsBinary, amendedFieldsBinary,
                     (ihT f.underlying h1).1, ihL rest h2]

theorem hashmapIsBinaryKey_eq_amended (t : GoType) :
    hashmapIsBinaryKey t = (classifySpecAmended t == KeyClass.BinaryKey) :=
  ((classifyAmended_aux (sizeOf t)).1 t le_rfl).1

theorem isStringBasic_eq_amended (t : GoType) :
    isStringBasic t.underlying =
      (classifySpecAmended t == KeyClass.StringKey) :=
  ((classifyAmended_aux (sizeOf t)).1 t le_rfl).2

/-- C1 amended: the classifier (total and deterministic by construction)
returns exactly the class of the spec table with the array rule amended: a
fixed-size array is BinaryKey iff its element classifies as BinaryKey and
Unsupported otherwise; all other rows are as the claim states them. -/
theorem classify_eq_classifySpecAmended (t : GoType) :
    classify t = classifySpecAmended t := by
  have h1 := hashmapIsBinaryKey_eq_amended t
  have h2 := isStringBasic_eq_amended t
  have h3 := isBinaryKey_underlying t
  unfold classify
  cases hc : classifySpecAmended t with
  | StringKey =>
      rw [hc] at h2
      simp only [beq_self_eq_true] at h2
      simp [h2]
  | BinaryKey =>
      rw [hc] at h1 h2
      simp only [show (KeyClass.BinaryKey == KeyClass.StringKey) = false
                   from rfl] at h2
      simp only [beq_self_eq_true] at h1
      simp [h2, h3, h1]
  | Unsupported =>
      rw [hc] at h1 h2
      simp only [show (KeyClass.Unsupported == KeyClass.StringKey) = false
                   from rfl] at h2
      simp only [show (KeyClass.Unsupported == KeyClass.BinaryKey) = false
                   from rfl] at h1
      simp [h2, h3, h1]

/-- C1 counterexample: the spec table as claimed says a fixed-size array
inherits its element's class, so an array of strings would be StringKey;
the code classifies it as unsupported (the binary-key test fails and the
string path requires the key type itself to be a basic string). -/
theorem classify_array_string_counterexample :
    classify (.array 1 (.basic .string)) = KeyClass.Unsupported ∧
    classifySpec (.array 1 (.basic .string)) = KeyClass.StringKey ∧
    KeyClass.Unsupported ≠ KeyClass.StringKey := by
  refine ⟨?_, ?_, by decide⟩
  · simp [classify, GoType.underlying, isStringBasic, hashmapIsBinaryKey,
          BasicKind.info, IsString, IsBoolean, IsInteger,
          (show (32 : Nat) &&& 3 = 0 from by decide)]
  · simp [classifySpec, BasicKind.info, IsString,
          (show (32 : Nat) &&& 32 = 32 from by decide)]
